import Mathlib

/-!
# Shallow embedding of `fstab-rust` (`src/lib.rs`)

The repository is a single-module parser for the Unix `fstab` file format.
This file embeds its data model and parsing functions in Lean and proves the
specified properties about them.

Strings are Lean `String`s; all character-level operations are modelled on the
underlying `List Char` (`String.data`), which matches the Rust `str` operations
used by the source on the inputs in question (the only byte-index operation,
`split_at`, is applied right after an ASCII-prefix check, where byte indices
and character indices coincide).  File I/O is abstracted as in the source's
contract: the reader delivers a finite sequence of line-read results, and a
failed `File::open` is a distinguished case.
-/

deriving instance DecidableEq for Except

namespace FstabRust

/-- Model of Rust `str::starts_with` (character-wise exact match). -/
def starts_with (s p : String) : Bool :=
  s.data.take p.data.length == p.data

/-- Model of Rust `str::split_at(n).1` for `n` within an ASCII region:
drop the first `n` characters. -/
def split_at_snd (s : String) (n : Nat) : String :=
  ⟨s.data.drop n⟩

/-- Model of Rust `str::trim`: remove leading and trailing whitespace. -/
def trim (s : String) : String :=
  ⟨(s.data.dropWhile Char.isWhitespace).rdropWhile Char.isWhitespace⟩

/-- Model of Rust `str::split_whitespace`: split on runs of whitespace,
producing no empty tokens. -/
def split_whitespace (s : String) : List String :=
  ((s.data.splitOnP Char.isWhitespace).filter (fun t => t ≠ [])).map
    (fun t => ⟨t⟩)

/-- Model of Rust `str::split(",")` (single-character separator, keeping
empty pieces). -/
def split_on_char (s : String) (c : Char) : List String :=
  (s.data.splitOn c).map (fun t => ⟨t⟩)

/-- Numeric value of a list of decimal digits, most significant first. -/
def digitsVal (cs : List Char) : Nat :=
  cs.foldl (fun a c => a * 10 + (c.toNat - 48)) 0

/-- Model of Rust `str::parse::<usize>()` (64-bit target): optional leading
`+`, then one or more ASCII digits, value below `2^64`; on failure, the
description produced by `ParseIntError::description`. -/
def parse_usize (s : String) : Except String Nat :=
  let cs := if s.data.head? = some '+' then s.data.tail else s.data
  if cs = [] then .error "cannot parse integer from empty string"
  else if cs.all Char.isDigit then
    if digitsVal cs < 2 ^ 64 then .ok (digitsVal cs)
    else .error "number too large to fit in target type"
  else .error "invalid digit found in string"

/-- `enum Device` from `src/lib.rs`. -/
inductive Device where
  | Uuid (s : String)
  | Label (s : String)
  | MountPoint (s : String)
  | PartUuid (s : String)
  | PartLabel (s : String)
deriving DecidableEq, Repr

/-- `enum ErrorType` from `src/lib.rs`. -/
inductive ErrorType where
  | FstabNotExist (s : String)
  | NumParseError (s : String)
  | FieldNotExist (n : Nat)
  | TooManyFields (s : String)
deriving DecidableEq, Repr

/-- `struct Fstab` from `src/lib.rs`. -/
structure Fstab where
  device : Device
  dir : String
  device_type : String
  options : List String
  dump : Bool
  fsck : Nat
deriving DecidableEq, Repr

/-- `parse_device` from `src/lib.rs`: ordered first-match prefix
classification.  Faithfully reproduces the source's stripping counts
(`split_at(5)` after a `PARTUUID=` match, `split_at(6)` after a
`PARTLABEL=` match). -/
def parse_device (name : String) : Device :=
  if starts_with name "UUID=" then .Uuid (split_at_snd name 5)
  else if starts_with name "LABEL=" then .Label (split_at_snd name 6)
  else if starts_with name "PARTUUID=" then .PartUuid (split_at_snd name 5)
  else if starts_with name "PARTLABEL=" then .PartLabel (split_at_snd name 6)
  else .MountPoint name

/-- `tabs.next().ok_or(Error { reason: FieldNotExist(i) })` for the token
iterator of one line, `i` being the number of tokens already consumed. -/
def nextField (tabs : List String) (i : Nat) : Except ErrorType String :=
  match tabs[i]? with
  | some t => .ok t
  | none => .error (.FieldNotExist i)

/-- The body of the `for` loop of `open_fstab` for one trimmed data line:
build one `Fstab` value, evaluating the fields in source order (device, dir,
device_type, options, dump, fsck) and propagating the first error, then fail
with `TooManyFields l` if a seventh token remains. -/
def parse_line (l : String) : Except ErrorType Fstab := do
  let tabs := split_whitespace l
  let device ← nextField tabs 0
  let dir ← nextField tabs 1
  let device_type ← nextField tabs 2
  let optField ← nextField tabs 3
  let dump ← match tabs[4]? with
    | some x =>
      match parse_usize x with
      | .ok n => Except.ok (if n > 0 then true else false)
      | .error e => Except.error (.NumParseError e)
    | none => Except.ok false
  let fsck ← match tabs[5]? with
    | some x =>
      match parse_usize x with
      | .ok n => Except.ok n
      | .error e => Except.error (.NumParseError e)
    | none => Except.ok 0
  if (tabs[6]?).isSome then
    Except.error (.TooManyFields l)
  else
    Except.ok { device := parse_device device, dir := dir,
                device_type := device_type,
                options := split_on_char optField ',',
                dump := dump, fsck := fsck }

/-- The line loop of `open_fstab` over the sequence of line-read results
(`none` models a line the reader failed to produce, i.e. Rust's
`if let Ok(l) = l` falling through): trim, skip comments and blanks, parse
data lines in order, and abort on the first error. -/
def process_lines : List (Option String) → Except ErrorType (List Fstab)
  | [] => .ok []
  | none :: rest => process_lines rest
  | some l :: rest =>
    let t := trim l
    if starts_with t "#" = true ∨ t.length = 0 then process_lines rest
    else
      match parse_line t with
      | .error e => .error e
      | .ok entry =>
        match process_lines rest with
        | .error e => .error e
        | .ok items => .ok (entry :: items)

/-- `open_fstab` from `src/lib.rs`, with the file system abstracted: the
argument is `none` when `File::open` fails (carrying the I/O description of
`Error::description`, fixed here) and `some lines` when it succeeds, `lines`
being the sequence of line-read results delivered by the buffered reader. -/
def open_fstab (file : Option (List (Option String))) :
    Except ErrorType (List Fstab) :=
  match file with
  | none => .error (.FstabNotExist "can not open fstab")
  | some ls => process_lines ls

/-- Rejoining a token list with a separator character (inverse direction of
`split_on_char`, used to state the options round-trip). -/
def join_with_char (ts : List String) (c : Char) : String :=
  ⟨[c].intercalate (ts.map String.data)⟩

/-- Identifier payload carried by a `Device` value. -/
def device_payload : Device → String
  | .Uuid s => s
  | .Label s => s
  | .MountPoint s => s
  | .PartUuid s => s
  | .PartLabel s => s

/-- The entry (if any) that one line-read result contributes to the output
of `open_fstab`. -/
def line_result (ol : Option String) : Option Fstab :=
  match ol with
  | none => none
  | some l =>
    if starts_with (trim l) "#" = true ∨ (trim l).length = 0 then none
    else (parse_line (trim l)).toOption

/-- A line-read result that does not abort the parse: a failed read, a
comment/blank line, or a data line that parses. -/
def line_ok (ol : Option String) : Bool :=
  match ol with
  | none => true
  | some l =>
    if starts_with (trim l) "#" = true ∨ (trim l).length = 0 then true
    else (parse_line (trim l)).isOk

/-- Errors that originate from parsing a line (as opposed to the failed
`File::open`). -/
def is_line_error : ErrorType → Bool
  | .FstabNotExist _ => false
  | _ => true

/-! ## Helper lemmas -/

theorem starts_with_eq_take (s p : String) (h : starts_with s p = true) :
    s.data.take p.data.length = p.data := by
  simpa [starts_with] using h

theorem starts_with_getElem (s p : String) (h : starts_with s p = true)
    (i : Nat) (hi : i < p.data.length) : s.data[i]? = p.data[i]? := by
  rw [← starts_with_eq_take s p h, List.getElem?_take, if_pos hi]

theorem starts_with_excl (s p q : String) (i : Nat)
    (hi : p.data[i]? ≠ q.data[i]?) (hip : i < p.data.length)
    (hiq : i < q.data.length) (hp : starts_with s p = true) :
    starts_with s q = false := by
  by_contra hq
  rw [Bool.not_eq_false] at hq
  exact hi ((starts_with_getElem s p hp i hip).symm.trans
    (starts_with_getElem s q hq i hiq))

theorem splitOnP_forall_nil {α : Type} (p : α → Bool) (xs : List α) :
    (∀ t ∈ xs.splitOnP p, t = []) ↔ ∀ c ∈ xs, p c := by
  induction xs with
  | nil => simp
  | cons a as ih =>
    rw [List.splitOnP_cons]
    by_cases hp : p a
    · simp [hp, ih]
    · obtain ⟨h, tl, hht⟩ := List.exists_cons_of_ne_nil (List.splitOnP_ne_nil p as)
      simp [hp, hht]

theorem split_whitespace_eq_nil_iff (s : String) :
    split_whitespace s = [] ↔ ∀ c ∈ s.data, Char.isWhitespace c := by
  rw [split_whitespace, List.map_eq_nil_iff, List.filter_eq_nil_iff,
    ← splitOnP_forall_nil Char.isWhitespace s.data]
  simp

theorem trim_data_head (s : String) (h : (trim s).data ≠ []) :
    ∃ c cs, (trim s).data = c :: cs ∧ Char.isWhitespace c = false := by
  obtain ⟨c, cs, hcs⟩ := List.exists_cons_of_ne_nil h
  refine ⟨c, cs, hcs, ?_⟩
  have hpre : (trim s).data <+: s.data.dropWhile Char.isWhitespace := by
    simpa [trim] using
      List.rdropWhile_prefix Char.isWhitespace (s.data.dropWhile Char.isWhitespace)
  obtain ⟨rest, hrest⟩ := hpre
  rw [hcs] at hrest
  have hlen : 0 < (s.data.dropWhile Char.isWhitespace).length := by
    rw [← hrest]; simp
  have hnot := List.dropWhile_get_zero_not Char.isWhitespace s.data hlen
  have hget : (s.data.dropWhile Char.isWhitespace).get ⟨0, hlen⟩ = c := by
    have hcons : (s.data.dropWhile Char.isWhitespace) = c :: (cs ++ rest) := by
      rw [← hrest]; rfl
    simp [hcons]
  rw [hget] at hnot
  simpa using hnot

theorem split_whitespace_trim_ne_nil (s : String) (h : (trim s).data ≠ []) :
    split_whitespace (trim s) ≠ [] := by
  obtain ⟨c, cs, hcs, hc⟩ := trim_data_head s h
  rw [Ne, split_whitespace_eq_nil_iff]
  intro hall
  have hmem := hall c (by rw [hcs]; exact List.mem_cons_self c cs)
  rw [hc] at hmem
  exact Bool.false_ne_true hmem

theorem join_split_on_char (s : String) (c : Char) :
    join_with_char (split_on_char s c) c = s := by
  rw [join_with_char, split_on_char, List.map_map]
  have hid : (String.data ∘ fun t : List Char => (⟨t⟩ : String)) = id := rfl
  rw [hid, List.map_id, List.intercalate_splitOn]

theorem split_on_char_ne_nil (s : String) (c : Char) :
    split_on_char s c ≠ [] := by
  rw [split_on_char, Ne, List.map_eq_nil_iff]
  exact List.splitOnP_ne_nil _ _

theorem parse_device_uuid (name : String)
    (h : starts_with name "UUID=" = true) :
    parse_device name = .Uuid (split_at_snd name 5) := by
  simp [parse_device, h]

theorem parse_device_label (name : String)
    (h : starts_with name "LABEL=" = true) :
    parse_device name = .Label (split_at_snd name 6) := by
  have hu : starts_with name "UUID=" = false :=
    starts_with_excl name "LABEL=" "UUID=" 0 (by decide) (by decide)
      (by decide) h
  simp [parse_device, h, hu]

theorem parse_device_partuuid (name : String)
    (h : starts_with name "PARTUUID=" = true) :
    parse_device name = .PartUuid (split_at_snd name 5) := by
  have hu : starts_with name "UUID=" = false :=
    starts_with_excl name "PARTUUID=" "UUID=" 0 (by decide) (by decide)
      (by decide) h
  have hl : starts_with name "LABEL=" = false :=
    starts_with_excl name "PARTUUID=" "LABEL=" 0 (by decide) (by decide)
      (by decide) h
  simp [parse_device, h, hu, hl]

theorem parse_device_partlabel (name : String)
    (h : starts_with name "PARTLABEL=" = true) :
    parse_device name = .PartLabel (split_at_snd name 6) := by
  have hu : starts_with name "UUID=" = false :=
    starts_with_excl name "PARTLABEL=" "UUID=" 0 (by decide) (by decide)
      (by decide) h
  have hl : starts_with name "LABEL=" = false :=
    starts_with_excl name "PARTLABEL=" "LABEL=" 0 (by decide) (by decide)
      (by decide) h
  have hpu : starts_with name "PARTUUID=" = false :=
    starts_with_excl name "PARTLABEL=" "PARTUUID=" 4 (by decide) (by decide)
      (by decide) h
  simp [parse_device, h, hu, hl, hpu]

theorem parse_line_tok0 (l : String) (h : split_whitespace l = []) :
    parse_line l = .error (.FieldNotExist 0) := by
  simp [parse_line, nextField, h, bind, Except.bind]

theorem parse_line_tok1 (l t0 : String) (h : split_whitespace l = [t0]) :
    parse_line l = .error (.FieldNotExist 1) := by
  simp [parse_line, nextField, h, bind, Except.bind]

theorem parse_line_tok2 (l t0 t1 : String)
    (h : split_whitespace l = [t0, t1]) :
    parse_line l = .error (.FieldNotExist 2) := by
  simp [parse_line, nextField, h, bind, Except.bind]

theorem parse_line_tok3 (l t0 t1 t2 : String)
    (h : split_whitespace l = [t0, t1, t2]) :
    parse_line l = .error (.FieldNotExist 3) := by
  simp [parse_line, nextField, h, bind, Except.bind]

theorem parse_line_tok4 (l t0 t1 t2 t3 : String)
    (h : split_whitespace l = [t0, t1, t2, t3]) :
    parse_line l =
      .ok ⟨parse_device t0, t1, t2, split_on_char t3 ',', false, 0⟩ := by
  simp [parse_line, nextField, h, bind, Except.bind]

theorem parse_line_tok5 (l t0 t1 t2 t3 t4 : String)
    (h : split_whitespace l = [t0, t1, t2, t3, t4]) :
    parse_line l = (match parse_usize t4 with
      | .ok n => .ok ⟨parse_device t0, t1, t2, split_on_char t3 ',',
                      if n > 0 then true else false, 0⟩
      | .error e => .error (.NumParseError e)) := by
  rcases hp : parse_usize t4 with e | n <;>
    simp [parse_line, nextField, h, hp, bind, Except.bind]

theorem parse_line_tok6 (l t0 t1 t2 t3 t4 t5 : String)
    (h : split_whitespace l = [t0, t1, t2, t3, t4, t5]) :
    parse_line l = (match parse_usize t4 with
      | .error e => .error (.NumParseError e)
      | .ok n4 =>
        match parse_usize t5 with
        | .error e => .error (.NumParseError e)
        | .ok n5 => .ok ⟨parse_device t0, t1, t2, split_on_char t3 ',',
                         if n4 > 0 then true else false, n5⟩) := by
  rcases hp4 : parse_usize t4 with e4 | n4 <;>
    rcases hp5 : parse_usize t5 with e5 | n5 <;>
      simp [parse_line, nextField, h, hp4, hp5, bind, Except.bind]

theorem parse_line_tok7 (l t0 t1 t2 t3 t4 t5 t6 : String) (rest : List String)
    (h : split_whitespace l = t0 :: t1 :: t2 :: t3 :: t4 :: t5 :: t6 :: rest) :
    parse_line l = (match parse_usize t4 with
      | .error e => .error (.NumParseError e)
      | .ok _ =>
        match parse_usize t5 with
        | .error e => .error (.NumParseError e)
        | .ok _ => .error (.TooManyFields l)) := by
  rcases hp4 : parse_usize t4 with e4 | n4 <;>
    rcases hp5 : parse_usize t5 with e5 | n5 <;>
      simp [parse_line, nextField, h, hp4, hp5, bind, Except.bind]

theorem token_shapes (ts : List String) :
    ts = [] ∨ (∃ t0, ts = [t0]) ∨ (∃ t0 t1, ts = [t0, t1]) ∨
    (∃ t0 t1 t2, ts = [t0, t1, t2]) ∨
    (∃ t0 t1 t2 t3, ts = [t0, t1, t2, t3]) ∨
    (∃ t0 t1 t2 t3 t4, ts = [t0, t1, t2, t3, t4]) ∨
    (∃ t0 t1 t2 t3 t4 t5, ts = [t0, t1, t2, t3, t4, t5]) ∨
    (∃ t0 t1 t2 t3 t4 t5 t6 r, ts = t0 :: t1 :: t2 :: t3 :: t4 :: t5 :: t6 :: r) := by
  rcases ts with _ | ⟨t0, ts⟩
  · exact Or.inl rfl
  rcases ts with _ | ⟨t1, ts⟩
  · exact Or.inr (Or.inl ⟨t0, rfl⟩)
  rcases ts with _ | ⟨t2, ts⟩
  · exact Or.inr (Or.inr (Or.inl ⟨t0, t1, rfl⟩))
  rcases ts with _ | ⟨t3, ts⟩
  · exact Or.inr (Or.inr (Or.inr (Or.inl ⟨t0, t1, t2, rfl⟩)))
  rcases ts with _ | ⟨t4, ts⟩
  · exact Or.inr (Or.inr (Or.inr (Or.inr (Or.inl ⟨t0, t1, t2, t3, rfl⟩))))
  rcases ts with _ | ⟨t5, ts⟩
  · exact Or.inr (Or.inr (Or.inr (Or.inr (Or.inr (Or.inl
      ⟨t0, t1, t2, t3, t4, rfl⟩)))))
  rcases ts with _ | ⟨t6, ts⟩
  · exact Or.inr (Or.inr (Or.inr (Or.inr (Or.inr (Or.inr (Or.inl
      ⟨t0, t1, t2, t3, t4, t5, rfl⟩))))))
  · exact Or.inr (Or.inr (Or.inr (Or.inr (Or.inr (Or.inr (Or.inr
      ⟨t0, t1, t2, t3, t4, t5, t6, ts, rfl⟩))))))

/-- Master inversion: what must hold of the tokens when `parse_line`
succeeds. -/
theorem parse_line_ok_inv (l : String) (e : Fstab) (h : parse_line l = .ok e) :
    ∃ t0 t1 t2 t3 rest, split_whitespace l = t0 :: t1 :: t2 :: t3 :: rest ∧
      rest.length ≤ 2 ∧
      e.device = parse_device t0 ∧ e.dir = t1 ∧ e.device_type = t2 ∧
      e.options = split_on_char t3 ',' ∧
      (match rest[0]? with
       | some t4 => ∃ n, parse_usize t4 = .ok n ∧
           e.dump = (if n > 0 then true else false)
       | none => e.dump = false) ∧
      (match rest[1]? with
       | some t5 => parse_usize t5 = .ok e.fsck
       | none => e.fsck = 0) := by
  rcases token_shapes (split_whitespace l) with hts | ⟨t0, hts⟩ | ⟨t0, t1, hts⟩ |
    ⟨t0, t1, t2, hts⟩ | ⟨t0, t1, t2, t3, hts⟩ | ⟨t0, t1, t2, t3, t4, hts⟩ |
    ⟨t0, t1, t2, t3, t4, t5, hts⟩ | ⟨t0, t1, t2, t3, t4, t5, t6, r, hts⟩
  · rw [parse_line_tok0 l hts] at h; exact absurd h (by simp)
  · rw [parse_line_tok1 l t0 hts] at h; exact absurd h (by simp)
  · rw [parse_line_tok2 l t0 t1 hts] at h; exact absurd h (by simp)
  · rw [parse_line_tok3 l t0 t1 t2 hts] at h; exact absurd h (by simp)
  · rw [parse_line_tok4 l t0 t1 t2 t3 hts] at h
    obtain rfl : e = ⟨parse_device t0, t1, t2, split_on_char t3 ',', false, 0⟩ :=
      (Except.ok.injEq _ _ ▸ h).symm
    exact ⟨t0, t1, t2, t3, [], hts, by simp, rfl, rfl, rfl, rfl, by simp, by simp⟩
  · rw [parse_line_tok5 l t0 t1 t2 t3 t4 hts] at h
    rcases hp4 : parse_usize t4 with e4 | n4
    · rw [hp4] at h; exact absurd h (by simp)
    · rw [hp4] at h
      simp only [Except.ok.injEq] at h
      subst h
      exact ⟨t0, t1, t2, t3, [t4], hts, by simp, rfl, rfl, rfl, rfl,
        by simp; exact ⟨n4, hp4, Iff.rfl⟩, by simp⟩
  · rw [parse_line_tok6 l t0 t1 t2 t3 t4 t5 hts] at h
    rcases hp4 : parse_usize t4 with e4 | n4
    · rw [hp4] at h; exact absurd h (by simp)
    · rcases hp5 : parse_usize t5 with e5 | n5
      · rw [hp4, hp5] at h; exact absurd h (by simp)
      · rw [hp4, hp5] at h
        simp only [Except.ok.injEq] at h
        subst h
        refine ⟨t0, t1, t2, t3, [t4, t5], hts, by simp, rfl, rfl, rfl, rfl,
          by simp; exact ⟨n4, hp4, Iff.rfl⟩, by simpa using hp5⟩
  · rw [parse_line_tok7 l t0 t1 t2 t3 t4 t5 t6 r hts] at h
    rcases hp4 : parse_usize t4 with e4 | n4 <;> rw [hp4] at h
    · exact absurd h (by simp)
    · rcases hp5 : parse_usize t5 with e5 | n5 <;> rw [hp5] at h <;>
        exact absurd h (by simp)

/-- Master inversion: classification of every possible `parse_line`
error. -/
theorem parse_line_error_inv (l : String) (e : ErrorType)
    (h : parse_line l = .error e) :
    (∃ i, e = .FieldNotExist i ∧ i < 4 ∧ (split_whitespace l).length = i) ∨
    (∃ s, e = .NumParseError s) ∨
    (e = .TooManyFields l ∧ 7 ≤ (split_whitespace l).length) := by
  rcases token_shapes (split_whitespace l) with hts | ⟨t0, hts⟩ | ⟨t0, t1, hts⟩ |
    ⟨t0, t1, t2, hts⟩ | ⟨t0, t1, t2, t3, hts⟩ | ⟨t0, t1, t2, t3, t4, hts⟩ |
    ⟨t0, t1, t2, t3, t4, t5, hts⟩ | ⟨t0, t1, t2, t3, t4, t5, t6, r, hts⟩
  · rw [parse_line_tok0 l hts] at h
    simp only [Except.error.injEq] at h
    exact Or.inl ⟨0, h.symm, by omega, by simp [hts]⟩
  · rw [parse_line_tok1 l t0 hts] at h
    simp only [Except.error.injEq] at h
    exact Or.inl ⟨1, h.symm, by omega, by simp [hts]⟩
  · rw [parse_line_tok2 l t0 t1 hts] at h
    simp only [Except.error.injEq] at h
    exact Or.inl ⟨2, h.symm, by omega, by simp [hts]⟩
  · rw [parse_line_tok3 l t0 t1 t2 hts] at h
    simp only [Except.error.injEq] at h
    exact Or.inl ⟨3, h.symm, by omega, by simp [hts]⟩
  · rw [parse_line_tok4 l t0 t1 t2 t3 hts] at h; exact absurd h (by simp)
  · rw [parse_line_tok5 l t0 t1 t2 t3 t4 hts] at h
    rcases hp4 : parse_usize t4 with e4 | n4 <;> rw [hp4] at h
    · simp only [Except.error.injEq] at h
      exact Or.inr (Or.inl ⟨e4, h.symm⟩)
    · exact absurd h (by simp)
  · rw [parse_line_tok6 l t0 t1 t2 t3 t4 t5 hts] at h
    rcases hp4 : parse_usize t4 with e4 | n4 <;> rw [hp4] at h
    · simp only [Except.error.injEq] at h
      exact Or.inr (Or.inl ⟨e4, h.symm⟩)
    · rcases hp5 : parse_usize t5 with e5 | n5 <;> rw [hp5] at h
      · simp only [Except.error.injEq] at h
        exact Or.inr (Or.inl ⟨e5, h.symm⟩)
      · exact absurd h (by simp)
  · rw [parse_line_tok7 l t0 t1 t2 t3 t4 t5 t6 r hts] at h
    rcases hp4 : parse_usize t4 with e4 | n4 <;> rw [hp4] at h
    · simp only [Except.error.injEq] at h
      exact Or.inr (Or.inl ⟨e4, h.symm⟩)
    · rcases hp5 : parse_usize t5 with e5 | n5 <;> rw [hp5] at h
      · simp only [Except.error.injEq] at h
        exact Or.inr (Or.inl ⟨e5, h.symm⟩)
      · simp only [Except.error.injEq] at h
        exact Or.inr (Or.inr ⟨h.symm, by simp [hts]⟩)

/-- Tokens 0-3 exist and the token at index 4 is explicit whenever
`ts[4]? = some t`. -/
theorem shape_of_getElem4 (ts : List String) (t : String)
    (h : ts[4]? = some t) :
    ∃ t0 t1 t2 t3 rest, ts = t0 :: t1 :: t2 :: t3 :: t :: rest := by
  rcases ts with _ | ⟨t0, _ | ⟨t1, _ | ⟨t2, _ | ⟨t3, _ | ⟨t4, rest⟩⟩⟩⟩⟩ <;>
    simp at h
  exact ⟨t0, t1, t2, t3, rest, by rw [h]⟩

/-- Tokens 0-4 exist and the token at index 5 is explicit whenever
`ts[5]? = some t`. -/
theorem shape_of_getElem5 (ts : List String) (t : String)
    (h : ts[5]? = some t) :
    ∃ t0 t1 t2 t3 t4 rest, ts = t0 :: t1 :: t2 :: t3 :: t4 :: t :: rest := by
  rcases ts with _ | ⟨t0, _ | ⟨t1, _ | ⟨t2, _ | ⟨t3, _ | ⟨t4, _ | ⟨t5, rest⟩⟩⟩⟩⟩⟩ <;>
    simp at h
  exact ⟨t0, t1, t2, t3, t4, rest, by rw [h]⟩

end FstabRust

namespace FstabRust

theorem isOk_exists {ε α : Type} (x : Except ε α) (h : x.isOk = true) :
    ∃ a, x = .ok a := by
  cases x with
  | error e => simp [Except.isOk, Except.toBool] at h
  | ok a => exact ⟨a, rfl⟩

/-- C1: the device classifier is a total function and classifies by ordered,
case-sensitive, first-match prefix tests: `UUID=` strips 5 characters giving
`Uuid`; else `LABEL=` strips 6 giving `Label`; else `PARTUUID=` strips
exactly 5 characters (not the 9-character prefix) giving `PartUuid`; else
`PARTLABEL=` strips exactly 6 characters (not the 10-character prefix)
giving `PartLabel`; else `MountPoint` holds the full string unchanged.
Totality is inherent: `parse_device` is a Lean function defined on every
`String`. -/
theorem claim_C1_device_classifier (name : String) :
    (starts_with name "UUID=" = true →
      parse_device name = .Uuid (split_at_snd name 5)) ∧
    (starts_with name "UUID=" = false → starts_with name "LABEL=" = true →
      parse_device name = .Label (split_at_snd name 6)) ∧
    (starts_with name "UUID=" = false → starts_with name "LABEL=" = false →
      starts_with name "PARTUUID=" = true →
      parse_device name = .PartUuid (split_at_snd name 5)) ∧
    (starts_with name "UUID=" = false → starts_with name "LABEL=" = false →
      starts_with name "PARTUUID=" = false →
      starts_with name "PARTLABEL=" = true →
      parse_device name = .PartLabel (split_at_snd name 6)) ∧
    (starts_with name "UUID=" = false → starts_with name "LABEL=" = false →
      starts_with name "PARTUUID=" = false →
      starts_with name "PARTLABEL=" = false →
      parse_device name = .MountPoint name) := by
  refine ⟨fun h1 => by simp [parse_device, h1],
    fun h1 h2 => by simp [parse_device, h1, h2],
    fun h1 h2 h3 => by simp [parse_device, h1, h2, h3],
    fun h1 h2 h3 h4 => by simp [parse_device, h1, h2, h3, h4],
    fun h1 h2 h3 h4 => by simp [parse_device, h1, h2, h3, h4]⟩

/-- Witness for C1 at the input demonstrating the `PARTUUID=` stripping
count. -/
theorem claim_C1_device_classifier_witness :
    parse_device "PARTUUID=abc" = .PartUuid (split_at_snd "PARTUUID=abc" 5) :=
  (claim_C1_device_classifier "PARTUUID=abc").2.2.1 (by decide) (by decide)
    (by decide)

/-- C2 counterexample: on the valid 6-token line
`PARTUUID=abc /mnt ext4 defaults 0 0` the parsed device payload is
`UID=abc`, whereas the raw field with its recognized prefix `PARTUUID=`
removed is `abc`; the two differ, so the claimed round-trip fails. -/
theorem claim_C2_counterexample :
    parse_line "PARTUUID=abc /mnt ext4 defaults 0 0" =
      .ok ⟨.PartUuid "UID=abc", "/mnt", "ext4", ["defaults"], false, 0⟩ ∧
    split_at_snd "PARTUUID=abc" ("PARTUUID=".data.length) = "abc" ∧
    ("UID=abc" : String) ≠ "abc" := by
  refine ⟨by decide, by decide, by decide⟩

/-- C2 (amended): for every valid 6-token data line whose dump and fsck
tokens are valid unsigned integers, parsing round-trips the four positional
string fields: dir and device_type are tokens 1 and 2 verbatim, the options
field is recovered by rejoining the options sequence with commas, and the
device payload is the raw field with the classifier's character count
stripped - 5 characters for `UUID=` and `PARTUUID=`, 6 for `LABEL=` and
`PARTLABEL=` (not the full recognized prefix in the `PARTUUID=` and
`PARTLABEL=` cases). -/
theorem claim_C2_round_trip (l t0 t1 t2 t3 t4 t5 : String) (n4 n5 : Nat)
    (hts : split_whitespace l = [t0, t1, t2, t3, t4, t5])
    (hp4 : parse_usize t4 = .ok n4) (hp5 : parse_usize t5 = .ok n5) :
    parse_line l = .ok ⟨parse_device t0, t1, t2, split_on_char t3 ',',
                        if n4 > 0 then true else false, n5⟩ ∧
    join_with_char (split_on_char t3 ',') ',' = t3 ∧
    (starts_with t0 "UUID=" = true →
      parse_device t0 = .Uuid (split_at_snd t0 5)) ∧
    (starts_with t0 "LABEL=" = true →
      parse_device t0 = .Label (split_at_snd t0 6)) ∧
    (starts_with t0 "PARTUUID=" = true →
      parse_device t0 = .PartUuid (split_at_snd t0 5)) ∧
    (starts_with t0 "PARTLABEL=" = true →
      parse_device t0 = .PartLabel (split_at_snd t0 6)) := by
  refine ⟨?_, join_split_on_char t3 ',', parse_device_uuid t0,
    parse_device_label t0, parse_device_partuuid t0,
    parse_device_partlabel t0⟩
  rw [parse_line_tok6 l t0 t1 t2 t3 t4 t5 hts, hp4, hp5]

/-- Witness for C2 (amended) on a concrete 6-token line. -/
theorem claim_C2_round_trip_witness :
    parse_line "LABEL=root / ext4 rw,x 0 2" =
      .ok ⟨parse_device "LABEL=root", "/", "ext4", split_on_char "rw,x" ',',
           if 0 > 0 then true else false, 2⟩ :=
  (claim_C2_round_trip "LABEL=root / ext4 rw,x 0 2" "LABEL=root" "/" "ext4"
    "rw,x" "0" "2" 0 2 (by decide) (by decide) (by decide)).1

/-- C3 counterexample: `a b c d x y z` has 7 whitespace-separated tokens,
yet parsing fails with `NumParseError` (the dump field `x` is parsed before
the extra-token check), not with `TooManyFields`. -/
theorem claim_C3_counterexample :
    (split_whitespace "a b c d x y z").length = 7 ∧
    parse_line "a b c d x y z" =
      .error (.NumParseError "invalid digit found in string") ∧
    parse_line "a b c d x y z" ≠
      .error (.TooManyFields "a b c d x y z") := by
  refine ⟨by decide, by decide, by decide⟩

/-- C3 (amended): a data line with 7 or more tokens whose dump and fsck
tokens are valid unsigned integers fails with `TooManyFields`, the payload
being the (trimmed) line passed to the line parser, verbatim; conversely a
`TooManyFields` error carries exactly that line and only ever arises on
lines with 7 or more tokens - in particular never on a 6-token line. -/
theorem claim_C3_too_many_fields (l : String) :
    (7 ≤ (split_whitespace l).length →
      ((split_whitespace l)[4]?.all fun t => (parse_usize t).isOk) = true →
      ((split_whitespace l)[5]?.all fun t => (parse_usize t).isOk) = true →
      parse_line l = .error (.TooManyFields l)) ∧
    (∀ s, parse_line l = .error (.TooManyFields s) →
      s = l ∧ 7 ≤ (split_whitespace l).length) := by
  constructor
  · intro h7 h4 h5
    rcases token_shapes (split_whitespace l) with hts | ⟨t0, hts⟩ |
      ⟨t0, t1, hts⟩ | ⟨t0, t1, t2, hts⟩ | ⟨t0, t1, t2, t3, hts⟩ |
      ⟨t0, t1, t2, t3, t4, hts⟩ | ⟨t0, t1, t2, t3, t4, t5, hts⟩ |
      ⟨t0, t1, t2, t3, t4, t5, t6, r, hts⟩ <;> rw [hts] at h7 <;>
        try simp at h7
    rw [hts] at h4 h5
    simp only [List.getElem?_cons_succ, List.getElem?_cons_zero,
      Option.all_some] at h4 h5
    obtain ⟨n4, hp4⟩ := isOk_exists _ h4
    obtain ⟨n5, hp5⟩ := isOk_exists _ h5
    rw [parse_line_tok7 l t0 t1 t2 t3 t4 t5 t6 r hts, hp4, hp5]
  · intro s h
    rcases parse_line_error_inv l _ h with ⟨i, hi, _, _⟩ | ⟨s2, hs2⟩ |
      ⟨heq, hlen⟩
    · exact absurd hi (by simp)
    · exact absurd hs2 (by simp)
    · exact ⟨(ErrorType.TooManyFields.injEq _ _ ▸ heq).symm ▸ rfl, hlen⟩

/-- Witness for C3 (amended) on a concrete 7-token line. -/
theorem claim_C3_too_many_fields_witness :
    parse_line "a b c d 0 1 e" = .error (.TooManyFields "a b c d 0 1 e") :=
  (claim_C3_too_many_fields "a b c d 0 1 e").1 (by decide) (by decide)
    (by decide)

/-- C4: a data line with fewer than 4 whitespace-separated tokens fails with
`FieldNotExist` carrying the index of the first missing required field,
which is the number of tokens present (0 = device, 1 = dir,
2 = device_type, 3 = options). -/
theorem claim_C4_missing_field (l : String)
    (h : (split_whitespace l).length < 4) :
    parse_line l = .error (.FieldNotExist (split_whitespace l).length) := by
  rcases token_shapes (split_whitespace l) with hts | ⟨t0, hts⟩ |
    ⟨t0, t1, hts⟩ | ⟨t0, t1, t2, hts⟩ | ⟨t0, t1, t2, t3, hts⟩ |
    ⟨t0, t1, t2, t3, t4, hts⟩ | ⟨t0, t1, t2, t3, t4, t5, hts⟩ |
    ⟨t0, t1, t2, t3, t4, t5, t6, r, hts⟩
  · rw [parse_line_tok0 l hts, hts]; simp
  · rw [parse_line_tok1 l t0 hts, hts]; simp
  · rw [parse_line_tok2 l t0 t1 hts, hts]; simp
  · rw [parse_line_tok3 l t0 t1 t2 hts, hts]; simp
  all_goals rw [hts] at h
  all_goals simp at h
  all_goals omega

/-- Witness for C4 on a 2-token line. -/
theorem claim_C4_missing_field_witness :
    parse_line "a b" = .error (.FieldNotExist (split_whitespace "a b").length) :=
  claim_C4_missing_field "a b" (by decide)

/-- C5: dump and fsck are optional - a 4-token line parses with
`dump = false` and `fsck = 0`; a present token 4 is parsed as an unsigned
integer and mapped to a boolean (zero gives `false`, nonzero `true`); a
present but non-numeric token 4 or token 5 makes parsing fail with
`NumParseError`. -/
theorem claim_C5_optional_fields (l : String) :
    (∀ t0 t1 t2 t3, split_whitespace l = [t0, t1, t2, t3] →
      parse_line l =
        .ok ⟨parse_device t0, t1, t2, split_on_char t3 ',', false, 0⟩) ∧
    (∀ e t n, parse_line l = .ok e → (split_whitespace l)[4]? = some t →
      parse_usize t = .ok n → e.dump = (if n > 0 then true else false)) ∧
    (∀ t s, (split_whitespace l)[4]? = some t → parse_usize t = .error s →
      parse_line l = .error (.NumParseError s)) ∧
    (∀ t4 n4 t s, (split_whitespace l)[4]? = some t4 →
      parse_usize t4 = .ok n4 → (split_whitespace l)[5]? = some t →
      parse_usize t = .error s →
      parse_line l = .error (.NumParseError s)) := by
  refine ⟨fun t0 t1 t2 t3 hts => parse_line_tok4 l t0 t1 t2 t3 hts,
    ?_, ?_, ?_⟩
  · intro e t n hok h4 hn
    obtain ⟨t0, t1, t2, t3, rest, hts, _, _, _, _, _, hdump, _⟩ :=
      parse_line_ok_inv l e hok
    rw [hts] at h4
    simp only [List.getElem?_cons_succ, List.getElem?_cons_zero] at h4
    rw [h4] at hdump
    obtain ⟨n2, hp2, hd⟩ := hdump
    rw [hp2] at hn
    simp only [Except.ok.injEq] at hn
    rw [hd, hn]
  · intro t s h4 hs
    obtain ⟨t0, t1, t2, t3, rest, hts⟩ := shape_of_getElem4 _ t h4
    rcases rest with _ | ⟨t5, rest2⟩
    · rw [parse_line_tok5 l t0 t1 t2 t3 t hts, hs]
    · rcases rest2 with _ | ⟨t6, rest3⟩
      · rw [parse_line_tok6 l t0 t1 t2 t3 t t5 hts, hs]
      · rw [parse_line_tok7 l t0 t1 t2 t3 t t5 t6 rest3 hts, hs]
  · intro t4 n4 t s h4 hp4 h5 hs
    obtain ⟨t0, t1, t2, t3, t4x, rest, hts⟩ := shape_of_getElem5 _ t h5
    have ht4 : t4x = t4 := by
      rw [hts] at h4
      simpa using h4
    subst ht4
    rcases rest with _ | ⟨t6, rest2⟩
    · rw [parse_line_tok6 l t0 t1 t2 t3 t4x t hts, hp4, hs]
    · rw [parse_line_tok7 l t0 t1 t2 t3 t4x t t6 rest2 hts, hp4, hs]

/-- Witness for C5 on a 4-token line. -/
theorem claim_C5_optional_fields_witness :
    parse_line "a b c d" =
      .ok ⟨parse_device "a", "b", "c", split_on_char "d" ',', false, 0⟩ :=
  (claim_C5_optional_fields "a b c d").1 "a" "b" "c" "d" (by decide)

end FstabRust

namespace FstabRust

theorem process_lines_all_ok : ∀ (ls : List (Option String)),
    (∀ ol ∈ ls, line_ok ol = true) →
    process_lines ls = .ok (ls.filterMap line_result)
  | [], _ => by simp [process_lines]
  | none :: rest, hok => by
    have ih := process_lines_all_ok rest
      (fun ol2 hm => hok ol2 (List.mem_cons_of_mem _ hm))
    simpa [process_lines, line_result, List.filterMap_cons] using ih
  | some l :: rest, hok => by
    have ih := process_lines_all_ok rest
      (fun ol2 hm => hok ol2 (List.mem_cons_of_mem _ hm))
    by_cases hskip : starts_with (trim l) "#" = true ∨ (trim l).length = 0
    · simpa [process_lines, line_result, List.filterMap_cons, hskip] using ih
    · have hOk := hok (some l) (List.mem_cons_self _ _)
      simp only [line_ok] at hOk
      rw [if_neg hskip] at hOk
      obtain ⟨e, he⟩ := isOk_exists _ hOk
      simp [process_lines, line_result, List.filterMap_cons, hskip, he, ih,
        Except.toOption]

/-- C6: after trimming, lines that are empty or start with `#` are skipped -
they contribute no entry and never cause an error - so a file whose data
lines all parse yields exactly the data lines' entries, in file order
(`filterMap line_result` keeps one entry per data line and none for
comment/blank lines or failed reads). -/
theorem claim_C6_comments_blanks (ls : List (Option String))
    (hok : ∀ ol ∈ ls, line_ok ol = true) :
    process_lines ls = .ok (ls.filterMap line_result) ∧
    ∀ l ls2, (starts_with (trim l) "#" = true ∨ (trim l).length = 0) →
      process_lines (some l :: ls2) = process_lines ls2 := by
  refine ⟨process_lines_all_ok ls hok, ?_⟩
  intro l ls2 hskip
  rcases hskip with h | h <;> simp [process_lines, h]

/-- Witness for C6: a comment line, one valid data line, a failed read and a
whitespace-only line produce exactly the data line's entry. -/
theorem claim_C6_comments_blanks_witness :
    process_lines [some " # note ", some "a b c d", none, some "   "] =
      .ok ([some " # note ", some "a b c d", none,
            some "   "].filterMap line_result) :=
  (claim_C6_comments_blanks
    [some " # note ", some "a b c d", none, some "   "] (by decide)).1

/-- C7: parsing is fail-fast and atomic - if every line before some data
line is harmless (failed read, comment/blank, or parses) and that data line
fails with error `e`, the whole run returns exactly `.error e`, whatever
comes after; in particular no partial entry list is returned. -/
theorem claim_C7_fail_fast : ∀ (pre post : List (Option String)) (l : String)
    (e : ErrorType),
    (∀ ol ∈ pre, line_ok ol = true) →
    ¬(starts_with (trim l) "#" = true ∨ (trim l).length = 0) →
    parse_line (trim l) = .error e →
    process_lines (pre ++ some l :: post) = .error e
  | [], post, l, e, _, hskip, herr => by
    simp only [process_lines, List.nil_append]
    rw [if_neg hskip, herr]
  | none :: rest, post, l, e, hpre, hskip, herr => by
    have ih := claim_C7_fail_fast rest post l e
      (fun ol2 hm => hpre ol2 (List.mem_cons_of_mem _ hm)) hskip herr
    simpa [process_lines] using ih
  | some l2 :: rest, post, l, e, hpre, hskip, herr => by
    have ih := claim_C7_fail_fast rest post l e
      (fun ol2 hm => hpre ol2 (List.mem_cons_of_mem _ hm)) hskip herr
    have h2 := hpre (some l2) (List.mem_cons_self _ _)
    simp only [line_ok] at h2
    by_cases hskip2 : starts_with (trim l2) "#" = true ∨ (trim l2).length = 0
    · simpa [process_lines, hskip2] using ih
    · rw [if_neg hskip2] at h2
      obtain ⟨e2, he2⟩ := isOk_exists _ h2
      simp [process_lines, hskip2, he2, ih]

/-- Witness for C7: the bad line `x y` in the middle aborts the run with its
own error even though a valid line precedes and follows it. -/
theorem claim_C7_fail_fast_witness :
    process_lines ([some "# h", some "a b c d"] ++
        some "x y" :: [some "p q r s"]) =
      .error (.FieldNotExist 2) :=
  claim_C7_fail_fast [some "# h", some "a b c d"] [some "p q r s"] "x y"
    (.FieldNotExist 2) (by decide) (by decide) (by decide)

/-- C8: whenever a line parses, its options sequence is exactly the options
field split on `,` (order-preserving, adjacent commas giving empty strings)
and is never the empty collection; `defaults,noatime` splits into
`["defaults", "noatime"]` and `a,,b` keeps the empty middle piece. -/
theorem claim_C8_options_split (l : String) :
    (∀ e t, parse_line l = .ok e → (split_whitespace l)[3]? = some t →
      e.options = split_on_char t ',' ∧ e.options ≠ []) ∧
    split_on_char "defaults,noatime" ',' = ["defaults", "noatime"] ∧
    split_on_char "a,,b" ',' = ["a", "", "b"] := by
  refine ⟨?_, by decide, by decide⟩
  intro e t hok h3
  obtain ⟨t0, t1, t2, t3, rest, hts, _, _, _, _, hopt, _, _⟩ :=
    parse_line_ok_inv l e hok
  rw [hts] at h3
  simp only [List.getElem?_cons_succ, List.getElem?_cons_zero,
    Option.some.injEq] at h3
  subst h3
  exact ⟨hopt, by rw [hopt]; exact split_on_char_ne_nil _ ','⟩

/-- Witness for C8 on a line with adjacent commas in the options field. -/
theorem claim_C8_options_split_witness :
    (⟨.MountPoint "a", "b", "c", ["d", "", "e"], false, 0⟩ : Fstab).options =
      split_on_char "d,,e" ',' ∧
    (⟨.MountPoint "a", "b", "c", ["d", "", "e"], false, 0⟩ : Fstab).options ≠ [] :=
  (claim_C8_options_split "a b c d,,e").1
    ⟨.MountPoint "a", "b", "c", ["d", "", "e"], false, 0⟩ "d,,e"
    (by decide) (by decide)

/-- C9: the error `FieldNotExist 0` is unreachable through the line loop:
every line reaching field extraction is trimmed and non-empty, so
whitespace-splitting yields at least one token and any `FieldNotExist`
index returned is at least 1. -/
theorem claim_C9_field_zero_unreachable :
    ∀ (ls : List (Option String)) (i : Nat),
    process_lines ls = .error (.FieldNotExist i) → 1 ≤ i
  | [], i, h => by simp [process_lines] at h
  | none :: rest, i, h =>
    claim_C9_field_zero_unreachable rest i (by simpa [process_lines] using h)
  | some l :: rest, i, h => by
    by_cases hskip : starts_with (trim l) "#" = true ∨ (trim l).length = 0
    · exact claim_C9_field_zero_unreachable rest i
        (by simpa [process_lines, hskip] using h)
    · simp only [process_lines] at h
      rw [if_neg hskip] at h
      rcases hp : parse_line (trim l) with e2 | entry <;> rw [hp] at h
      · simp only [Except.error.injEq] at h
        subst h
        have hne : (trim l).length ≠ 0 := fun h0 => hskip (Or.inr h0)
        have hdata : (trim l).data ≠ [] := by
          intro hnil
          exact hne (by simp [String.length, hnil])
        have hsw := split_whitespace_trim_ne_nil l hdata
        rcases parse_line_error_inv _ _ hp with ⟨j, hj, _, hlen⟩ |
          ⟨s, hs⟩ | ⟨ht, _⟩
        · obtain rfl : i = j := by simpa using hj
          rcases Nat.eq_zero_or_pos i with rfl | hpos
          · rw [List.length_eq_zero] at hlen
            exact absurd hlen hsw
          · exact hpos
        · exact absurd hs (by simp)
        · exact absurd ht (by simp)
      · rcases hrest : process_lines rest with e2 | items <;> rw [hrest] at h
        · simp only [Except.error.injEq] at h
          subst h
          exact claim_C9_field_zero_unreachable rest i hrest
        · exact absurd h (by simp)

/-- Witness for C9: a one-token data line errors with index 1, never 0. -/
theorem claim_C9_field_zero_unreachable_witness :
    1 ≤ 1 ∧ process_lines [some "a"] = .error (.FieldNotExist 1) :=
  ⟨claim_C9_field_zero_unreachable [some "a"] 1 (by decide), by decide⟩

theorem process_lines_line_error : ∀ (ls : List (Option String))
    (e : ErrorType),
    process_lines ls = .error e → is_line_error e = true
  | [], e, h => by simp [process_lines] at h
  | none :: rest, e, h =>
    process_lines_line_error rest e (by simpa [process_lines] using h)
  | some l :: rest, e, h => by
    by_cases hskip : starts_with (trim l) "#" = true ∨ (trim l).length = 0
    · exact process_lines_line_error rest e
        (by simpa [process_lines, hskip] using h)
    · simp only [process_lines] at h
      rw [if_neg hskip] at h
      rcases hp : parse_line (trim l) with e2 | entry <;> rw [hp] at h
      · simp only [Except.error.injEq] at h
        subst h
        rcases parse_line_error_inv _ _ hp with ⟨j, hj, _, _⟩ |
          ⟨s, hs⟩ | ⟨ht, _⟩
        · rw [hj]; rfl
        · rw [hs]; rfl
        · rw [ht]; rfl
      · rcases hrest : process_lines rest with e2 | items <;> rw [hrest] at h
        · simp only [Except.error.injEq] at h
          subst h
          exact process_lines_line_error rest _ hrest
        · exact absurd h (by simp)

/-- C10: a line the reader fails to produce is silently skipped (no entry,
no error, parsing continues), so the only I/O-derived error `open_fstab`
can return is `FstabNotExist` from the initial open: the line loop itself
only ever returns line errors, and the failed-open case returns
`FstabNotExist`. -/
theorem claim_C10_read_failures_skipped (ls : List (Option String)) :
    process_lines (none :: ls) = process_lines ls ∧
    (∀ e, process_lines ls = .error e → is_line_error e = true) ∧
    open_fstab none = .error (.FstabNotExist "can not open fstab") ∧
    open_fstab (some ls) = process_lines ls :=
  ⟨rfl, fun e h => process_lines_line_error ls e h, rfl, rfl⟩

/-- Witness for C10: the only error a file of one bad data line produces is
a line error, not `FstabNotExist`. -/
theorem claim_C10_read_failures_skipped_witness :
    is_line_error (.FieldNotExist 1) = true :=
  (claim_C10_read_failures_skipped [some "a"]).2.1 (.FieldNotExist 1)
    (by decide)

end FstabRust
